import Mathlib

/-!
Rate-limiting middleware of `weather-api-redis`: a shallow embedding.

This file embeds the two-tier admission-control middleware
(`internal/middleware/rate_limiter.go`, the revision the claims cite) and
the rate-limiter configuration accessors (`internal/config/config.go`), and
settles the frozen claims about them.

Modelling conventions:
* time is a rational number of seconds; every `time.Now()` call site becomes
  an explicit `now : ℚ` argument;
* Go maps become association lists with deterministic first-match lookup
  (the request path never iterates over a map, so iteration order is moot);
* the library token bucket `golang.org/x/time/rate.Limiter` is a vendored
  dependency whose source is not part of the repository; it is modelled from
  the spec (§4.2 TokenBucket), which describes the same observable behaviour
  for the monotone call pattern the middleware produces;
* `getIP` / `getParam` (HTTP header and URL-query extraction) are treated as
  the boundary: the embedded middleware consumes the already-extracted client
  identity and raw parameter value (`""` when the query parameter is missing
  or empty, exactly what `url.Values.Get` returns).
-/

namespace WeatherApi

/-- Modelled from the spec (§4.2 TokenBucket): the token-bucket limiter
`golang.org/x/time/rate.Limiter`, an external dependency whose source is not
under `src/`.  `refillPerSecond` is the refill rate in tokens per second,
`burst` the capacity, `tokens` the stored token count as of time
`lastRefill` (in seconds). -/
structure Limiter where
  refillPerSecond : ℚ
  burst : ℤ
  tokens : ℚ
  lastRefill : ℚ
  deriving Repr, DecidableEq

/-- Modelled from the spec (§4.2): `rate.NewLimiter(r, b)` as observed by the
middleware — the bucket starts with a full burst of tokens ("tokens
initialized to capacity"), timestamped with its creation time `now`. -/
def rateNewLimiter (r : ℚ) (b : ℤ) (now : ℚ) : Limiter :=
  ⟨r, b, (b : ℚ), now⟩

/-- Modelled from the spec (§4.2): token count after refilling at time `now` —
add `elapsedSeconds × refillPerSecond`, capped at the capacity.  Elapsed time
is clamped at zero, as the library does for a `now` before `lastRefill`. -/
def Limiter.advance (l : Limiter) (now : ℚ) : ℚ :=
  min (l.burst : ℚ) (l.tokens + max 0 (now - l.lastRefill) * l.refillPerSecond)

/-- Modelled from the spec (§4.2): `limiter.Allow()` at time `now` — refill,
advance `lastRefill` to `now`, then if at least one token is available
consume one and grant, otherwise deny "without mutation beyond the refill". -/
def Limiter.allow (l : Limiter) (now : ℚ) : Bool × Limiter :=
  let toks := l.advance now
  if 1 ≤ toks then (true, { l with tokens := toks - 1, lastRefill := now })
  else (false, { l with tokens := toks, lastRefill := now })

/-- Struct `visitor` (rate_limiter.go): the rate limiter and last-seen time kept for
one client IP in the global registry. -/
structure Visitor where
  limiter : Limiter
  lastSeen : ℚ
  deriving Repr, DecidableEq

/-- Struct `paramVisitor` (rate_limiter.go): the rate limiter and last-seen time kept
for one (client IP, parameter value) pair in the param registry. -/
structure ParamVisitor where
  limiter : Limiter
  lastSeen : ℚ
  deriving Repr, DecidableEq

/-- Association-list lookup: the embedding of a Go map read `m[k]`. -/
def alookup {β : Type} (k : String) : List (String × β) → Option β
  | [] => none
  | (k', v) :: rest => if k = k' then some v else alookup k rest

/-- Association-list in-place update of the first entry with key `k`: the
embedding of a Go map write `m[k] = v` on a key already present. -/
def aset {β : Type} (k : String) (v : β) : List (String × β) → List (String × β)
  | [] => []
  | (k', v') :: rest => if k = k' then (k, v) :: rest else (k', v') :: aset k v rest

/-- The package-level registries of rate_limiter.go: `globalVisitors`
(ip → visitor) and the two-level `paramVisitors` (ip → param → visitor). -/
structure MWState where
  globalVisitors : List (String × Visitor)
  paramVisitors : List (String × List (String × ParamVisitor))
  deriving Repr, DecidableEq

/-- The initial (and reset) registry state: both maps empty. -/
def MWState.empty : MWState := ⟨[], []⟩

/-- Registry effect of `getGlobalLimiter(ip)` (rate_limiter.go lines 46–57):
when `ip` is unseen, store a fresh visitor with a full hard-coded bucket
(`rate.NewLimiter(10.0/60.0, 10)`) stamped `lastSeen = now`; otherwise update
`lastSeen` only.  The Go function returns a pointer to the stored limiter;
the later `Allow` call through that pointer is embedded by
`MWState.allowGlobal`, which acts on the stored entry. -/
def touchGlobal (ip : String) (now : ℚ) (s : MWState) : MWState :=
  match alookup ip s.globalVisitors with
  | none =>
      { s with globalVisitors :=
          (ip, ⟨rateNewLimiter (10 / 60) 10 now, now⟩) :: s.globalVisitors }
  | some v =>
      { s with globalVisitors := aset ip { v with lastSeen := now } s.globalVisitors }

/-- Inner-map half of `getParamLimiter` (rate_limiter.go lines 67–74): within
one client's parameter map, create a fresh `rate.NewLimiter(2.0/60.0, 2)`
visitor for an unseen parameter value, else update `lastSeen`. -/
def touchInner (param : String) (now : ℚ) (inner : List (String × ParamVisitor)) :
    List (String × ParamVisitor) :=
  match alookup param inner with
  | none => (param, ⟨rateNewLimiter (2 / 60) 2 now, now⟩) :: inner
  | some v => aset param { v with lastSeen := now } inner

/-- Registry effect of `getParamLimiter(ip, param)` (rate_limiter.go lines
61–75): ensure the outer entry for `ip` exists, then create or touch the
inner entry for `param`. -/
def touchParam (ip param : String) (now : ℚ) (s : MWState) : MWState :=
  match alookup ip s.paramVisitors with
  | none => { s with paramVisitors := (ip, touchInner param now []) :: s.paramVisitors }
  | some inner =>
      { s with paramVisitors := aset ip (touchInner param now inner) s.paramVisitors }

/-- The call `globalLimiter.Allow()` applied through the pointer stored in the global
registry.  The `none` branch is unreachable in the middleware, which always
touches `ip` first. -/
def MWState.allowGlobal (s : MWState) (ip : String) (now : ℚ) : Bool × MWState :=
  match alookup ip s.globalVisitors with
  | none => (false, s)
  | some v =>
      let a := v.limiter.allow now
      (a.1, { s with globalVisitors := aset ip { v with limiter := a.2 } s.globalVisitors })

/-- The call `paramLimiter.Allow()` applied through the pointer stored in the param
registry.  The `none` branches are unreachable in the middleware, which
always touches `(ip, param)` first. -/
def MWState.allowParam (s : MWState) (ip param : String) (now : ℚ) : Bool × MWState :=
  match alookup ip s.paramVisitors with
  | none => (false, s)
  | some inner =>
      match alookup param inner with
      | none => (false, s)
      | some v =>
          let a := v.limiter.allow now
          let inner' := aset param { v with limiter := a.2 } inner
          (a.1, { s with paramVisitors := aset ip inner' s.paramVisitors })

/-- Struct `model.Response` (internal/model/response.go) as the middleware populates
it: the `Data` field is always nil/omitted in denial responses, so only the
optional error string and the message are modelled. -/
structure Response where
  error : Option String
  message : String
  deriving Repr, DecidableEq

/-- Observable outcome of one request through `RateLimitMiddleware`: either
forwarded to the wrapped handler, or short-circuited with an HTTP status, a
Content-Type header value, and a JSON body. -/
inductive MWResult where
  | forwarded
  | denied (status : Nat) (contentType : String) (body : Response)
  deriving Repr, DecidableEq

/-- Error string of the global-tier denial (rate_limiter.go line 164). -/
def globalLimitError : String := "Rate limit exceeded: max 10 requests per minute per user/IP"

/-- Message of the global-tier denial (rate_limiter.go line 167). -/
def globalLimitMessage : String := "Too Many Requests (global limit)"

/-- Error string of the param-tier denial (rate_limiter.go line 175). -/
def paramLimitError : String := "Rate limit exceeded: max 2 requests per minute per unique param per user/IP"

/-- Message of the param-tier denial (rate_limiter.go line 178). -/
def paramLimitMessage : String := "Too Many Requests (per-param limit)"

/-- The complete global-tier denial response: HTTP 429, JSON content type,
error string and global-limit message. -/
def globalDenyResult : MWResult :=
  .denied 429 "application/json" ⟨some globalLimitError, globalLimitMessage⟩

/-- The complete param-tier denial response: HTTP 429, JSON content type,
error string and per-param-limit message. -/
def paramDenyResult : MWResult :=
  .denied 429 "application/json" ⟨some paramLimitError, paramLimitMessage⟩

/-- Sentinel mapping of a missing/empty parameter value (rate_limiter.go
lines 155–158): `""` becomes the fixed bucket key `"__none__"`. -/
def normParam (rawParam : String) : String :=
  if rawParam = "" then "__none__" else rawParam

/-- One request through `RateLimitMiddleware` (rate_limiter.go lines
151–185).  `ip` is the resolved client identity (`getIP`), `rawParam` the
extracted query-parameter value (`getParam`; `""` when missing or empty),
`now` the request time.  Note the source obtains BOTH limiters (lines
159–160) before evaluating either: `getParamLimiter` runs — creating or
touching the param visitor — even when the global check then denies. -/
def RateLimitMiddleware (ip rawParam : String) (now : ℚ) (s : MWState) :
    MWResult × MWState :=
  let param := normParam rawParam
  let s1 := touchGlobal ip now s
  let s2 := touchParam ip param now s1
  let g := s2.allowGlobal ip now
  if !g.1 then
    (globalDenyResult, g.2)
  else
    let p := g.2.allowParam ip param now
    if !p.1 then (paramDenyResult, p.2)
    else (.forwarded, p.2)

/-- One pass of the sweep body of `cleanupGlobalVisitors` (rate_limiter.go
lines 81–87): delete every entry with `time.Since(lastSeen) > 3*time.Minute`
(timeout hard-coded to 180 seconds, strict comparison). -/
def cleanupGlobalVisitorsPass (now : ℚ) (s : MWState) : MWState :=
  { s with globalVisitors :=
      s.globalVisitors.filter (fun e => !decide (180 < now - e.2.lastSeen)) }

/-- One pass of the sweep body of `cleanupParamVisitors` (rate_limiter.go
lines 95–106): delete every inner entry idle strictly longer than 180
seconds, then delete outer entries whose inner map became empty. -/
def cleanupParamVisitorsPass (now : ℚ) (s : MWState) : MWState :=
  let swept := s.paramVisitors.map
    (fun e => (e.1, e.2.filter (fun pe => !decide (180 < now - pe.2.lastSeen))))
  { s with paramVisitors := swept.filter (fun e => !e.2.isEmpty) }

/-- Function `ResetVisitors()` (rate_limiter.go lines 117–128): delete every key of
both registries, leaving them empty. -/
def ResetVisitors (_s : MWState) : MWState := MWState.empty

/-- One inbound request as the middleware sees it: resolved client identity,
raw extracted parameter value, and arrival time. -/
structure Request where
  ip : String
  rawParam : String
  time : ℚ
  deriving Repr, DecidableEq

/-- Sequential execution of a list of requests through the middleware,
collecting each request's observable outcome. -/
def mwRun : List Request → MWState → List MWResult × MWState
  | [], s => ([], s)
  | r :: rs, s =>
      let step := RateLimitMiddleware r.ip r.rawParam r.time s
      let rest := mwRun rs step.2
      (step.1 :: rest.1, rest.2)

/-- Modelled from the Go standard library documentation of
`time.ParseDuration`: seconds denoted by each duration unit; `none` for an
unknown or empty unit.  (The `µs`/`μs` aliases of `us` are omitted: the
configuration strings of interest are ASCII.) -/
def durationUnitSeconds : String → Option ℚ
  | "ns" => some (1 / 1000000000)
  | "us" => some (1 / 1000000)
  | "ms" => some (1 / 1000)
  | "s" => some 1
  | "m" => some 60
  | "h" => some 3600
  | _ => none

/-- Consume leading decimal digits, returning their value, how many there
were, and the rest of the input. -/
def takeDigitsAux (acc : ℕ) (n : ℕ) : List Char → ℕ × ℕ × List Char
  | [] => (acc, n, [])
  | c :: rest =>
      if c.isDigit then takeDigitsAux (10 * acc + (c.toNat - 48)) (n + 1) rest
      else (acc, n, c :: rest)

/-- Consume leading decimal digits after a decimal point, returning their
fractional value, how many there were, and the rest of the input. -/
def takeFracAux (acc : ℚ) (scale : ℚ) (n : ℕ) : List Char → ℚ × ℕ × List Char
  | [] => (acc, n, [])
  | c :: rest =>
      if c.isDigit then
        takeFracAux (acc + scale * ((c.toNat - 48 : ℕ) : ℚ)) (scale / 10) (n + 1) rest
      else (acc, n, c :: rest)

/-- Consume a leading run of unit characters (everything up to the next digit
or decimal point). -/
def takeUnit : List Char → String × List Char
  | [] => ("", [])
  | c :: rest =>
      if c.isDigit || c = '.' then ("", c :: rest)
      else
        let (u, r) := takeUnit rest
        (⟨c :: u.data⟩, r)

/-- One `number [fraction] unit` component of a Go duration string: fails when
no digits are present before or after the decimal point, or when the unit is
missing or unknown.  Yields the component's value in seconds. -/
def parseComponent (s : List Char) : Option (ℚ × List Char) :=
  let (ival, icount, s1) := takeDigitsAux 0 0 s
  let (fval, fcount, s2) :=
    match s1 with
    | '.' :: rest => takeFracAux 0 (1 / 10) 0 rest
    | _ => ((0 : ℚ), 0, s1)
  if icount = 0 && fcount = 0 then none
  else
    let (u, s3) := takeUnit s2
    match durationUnitSeconds u with
    | none => none
    | some secs => some (((ival : ℚ) + fval) * secs, s3)

/-- Sum the components of a duration string; the fuel argument (instantiated
with more than the input length) only serves termination, each component
consuming at least one character. -/
def parseDurationLoop : ℕ → List Char → ℚ → Option ℚ
  | _, [], acc => some acc
  | 0, _ :: _, _ => none
  | fuel + 1, s, acc =>
      match parseComponent s with
      | none => none
      | some (v, rest) => parseDurationLoop fuel rest (acc + v)

/-- Modelled from the Go standard library documentation of
`time.ParseDuration` (the grammar `[-+]?([0-9]*(\.[0-9]*)?[a-z]+)+` with the
special case `"0"`), which config.go calls on the configured cleanup-timeout
string.  The result is in seconds, exact rational arithmetic standing in for
Go's nanosecond integers (overflow, which no realistic timeout reaches, is
not modelled). -/
def parseDuration (s : String) : Option ℚ :=
  let (neg, body) :=
    match s.data with
    | '-' :: rest => (true, rest)
    | '+' :: rest => (false, rest)
    | l => (false, l)
  if body = ['0'] then some 0
  else if body = [] then none
  else
    match parseDurationLoop (body.length + 1) body 0 with
    | none => none
    | some v => some (if neg then -v else v)

/-- The rate-limiter slice of the raw configuration exactly as the `viper`
library delivers it to config.go.  `viper.GetFloat64` and `viper.GetInt`
return `0` when a key is absent or its value unparsable, so those raw reads
are modelled by the number viper yields; `viper.GetString` yields `""` for an
absent key. -/
structure ViperConfig where
  cleanupTimeoutStr : String
  globalRateRaw : ℚ
  globalBurstRaw : ℤ
  paramRateRaw : ℚ
  paramBurstRaw : ℤ
  deriving Repr, DecidableEq

/-- Function `GetGlobalRateLimiterConfig` (config.go lines 132–143): rate and burst
for the global limiter, each falling back to 10 when the raw viper value is
zero (absent, zero-valued, or unparsable). -/
def GetGlobalRateLimiterConfig (c : ViperConfig) : ℚ × ℤ :=
  let rate := if c.globalRateRaw = 0 then 10 else c.globalRateRaw
  let burst := if c.globalBurstRaw = 0 then 10 else c.globalBurstRaw
  (rate, burst)

/-- Function `GetParamRateLimiterConfig` (config.go lines 146–157): rate and burst for
the per-parameter limiter, each falling back to 2 when the raw viper value is
zero (absent, zero-valued, or unparsable). -/
def GetParamRateLimiterConfig (c : ViperConfig) : ℚ × ℤ :=
  let rate := if c.paramRateRaw = 0 then 2 else c.paramRateRaw
  let burst := if c.paramBurstRaw = 0 then 2 else c.paramBurstRaw
  (rate, burst)

/-- Function `GetRateLimiterCleanupTimeout` (config.go lines 118–129): the configured
cleanup timeout in seconds; an empty setting is replaced by `"3m"` before
parsing, and a parse failure falls back to 3 minutes. -/
def GetRateLimiterCleanupTimeout (c : ViperConfig) : ℚ :=
  let durStr := c.cleanupTimeoutStr
  let durStr' := if durStr = "" then "3m" else durStr
  match parseDuration durStr' with
  | none => 180
  | some d => d

/-- The global-tier bucket the spec says a client should get: built from the
configured-or-defaulted rate and burst ("Construction takes (ratePerMinute,
burst); refillPerSecond = ratePerMinute / 60", §4.2, over the configuration
surface of §6).  This definition follows the spec's words — it exists to be
compared with the bucket the middleware actually creates. -/
def specConfiguredGlobalLimiter (c : ViperConfig) (now : ℚ) : Limiter :=
  let rb := GetGlobalRateLimiterConfig c
  rateNewLimiter (rb.1 / 60) rb.2 now

/-- The param-tier bucket the spec says a (client, parameter) pair should
get, built from the configured-or-defaulted per-parameter rate and burst.
This definition follows the spec's words — it exists to be compared with the
bucket the middleware actually creates. -/
def specConfiguredParamLimiter (c : ViperConfig) (now : ℚ) : Limiter :=
  let rb := GetParamRateLimiterConfig c
  rateNewLimiter (rb.1 / 60) rb.2 now

/-- Looking up the key just overwritten by `aset` yields the new value,
provided the key was present (as `aset` only replaces). -/
theorem alookup_aset_some {β : Type} {k : String} (v : β) {w : β} {l : List (String × β)}
    (h : alookup k l = some w) : alookup k (aset k v l) = some v := by
  induction l with
  | nil => simp [alookup] at h
  | cons e rest ih =>
      obtain ⟨k0, v0⟩ := e
      by_cases hk : k = k0
      · simp [alookup, aset, hk]
      · simp only [alookup, aset, if_neg hk] at h ⊢
        exact ih h

/-- Updating with `aset` at one key does not disturb lookups at any other key. -/
theorem alookup_aset_ne {β : Type} {k kq : String} (v : β) (l : List (String × β))
    (h : kq ≠ k) : alookup kq (aset k v l) = alookup kq l := by
  induction l with
  | nil => simp [aset]
  | cons e rest ih =>
      obtain ⟨k0, v0⟩ := e
      by_cases hk : k = k0
      · subst hk
        simp [alookup, aset, if_neg h]
      · by_cases hq : kq = k0
        · simp [alookup, aset, if_neg hk, hq]
        · simp [alookup, aset, if_neg hk, if_neg hq, ih]

/-- Call `getGlobalLimiter` leaves the param registry untouched. -/
theorem touchGlobal_paramVisitors (ip : String) (now : ℚ) (s : MWState) :
    (touchGlobal ip now s).paramVisitors = s.paramVisitors := by
  unfold touchGlobal
  cases alookup ip s.globalVisitors <;> rfl

/-- Call `getParamLimiter` leaves the global registry untouched. -/
theorem touchParam_globalVisitors (ip p : String) (now : ℚ) (s : MWState) :
    (touchParam ip p now s).globalVisitors = s.globalVisitors := by
  unfold touchParam
  cases alookup ip s.paramVisitors <;> rfl

/-- The global `Allow` call leaves the param registry untouched. -/
theorem allowGlobal_paramVisitors (s : MWState) (ip : String) (now : ℚ) :
    ((s.allowGlobal ip now).2).paramVisitors = s.paramVisitors := by
  unfold MWState.allowGlobal
  cases alookup ip s.globalVisitors <;> rfl

/-- The param `Allow` call leaves the global registry untouched. -/
theorem allowParam_globalVisitors (s : MWState) (ip p : String) (now : ℚ) :
    ((s.allowParam ip p now).2).globalVisitors = s.globalVisitors := by
  unfold MWState.allowParam
  cases h : alookup ip s.paramVisitors with
  | none => rfl
  | some inner => cases h2 : alookup p inner <;> simp [h2]

/-- The registry state every request operates on after both `getGlobalLimiter`
and `getParamLimiter` have run (rate_limiter.go lines 159–160). -/
def touchedState (ip key : String) (now : ℚ) (s : MWState) : MWState :=
  touchParam ip key now (touchGlobal ip now s)

/-- When the global `Allow` denies, the middleware returns the global denial
and the state as left by the failed global `Allow`. -/
theorem rateLimit_eq_globalDeny {ip raw : String} {now : ℚ} {s : MWState}
    (h : ((touchedState ip (normParam raw) now s).allowGlobal ip now).1 = false) :
    RateLimitMiddleware ip raw now s =
      (globalDenyResult, ((touchedState ip (normParam raw) now s).allowGlobal ip now).2) := by
  simp only [touchedState] at h ⊢
  unfold RateLimitMiddleware
  simp [h]

/-- When the global `Allow` grants and the param `Allow` denies, the
middleware returns the per-param denial. -/
theorem rateLimit_eq_paramDeny {ip raw : String} {now : ℚ} {s : MWState}
    (hg : ((touchedState ip (normParam raw) now s).allowGlobal ip now).1 = true)
    (hp : ((((touchedState ip (normParam raw) now s).allowGlobal ip now).2).allowParam
        ip (normParam raw) now).1 = false) :
    RateLimitMiddleware ip raw now s =
      (paramDenyResult, ((((touchedState ip (normParam raw) now s).allowGlobal ip now).2).allowParam
        ip (normParam raw) now).2) := by
  simp only [touchedState] at hg hp ⊢
  unfold RateLimitMiddleware
  simp [hg, hp]

/-- When both `Allow` calls grant, the middleware forwards the request. -/
theorem rateLimit_eq_forwarded {ip raw : String} {now : ℚ} {s : MWState}
    (hg : ((touchedState ip (normParam raw) now s).allowGlobal ip now).1 = true)
    (hp : ((((touchedState ip (normParam raw) now s).allowGlobal ip now).2).allowParam
        ip (normParam raw) now).1 = true) :
    RateLimitMiddleware ip raw now s =
      (MWResult.forwarded, ((((touchedState ip (normParam raw) now s).allowGlobal ip now).2).allowParam
        ip (normParam raw) now).2) := by
  simp only [touchedState] at hg hp ⊢
  unfold RateLimitMiddleware
  simp [hg, hp]

/-- The two denial responses and the forwarded outcome are pairwise
distinct observables. -/
theorem denyResults_distinct :
    globalDenyResult ≠ paramDenyResult ∧
    MWResult.forwarded ≠ globalDenyResult ∧ MWResult.forwarded ≠ paramDenyResult := by
  refine ⟨?_, by simp [globalDenyResult], by simp [paramDenyResult]⟩
  simp [globalDenyResult, paramDenyResult, globalLimitError, paramLimitError,
    globalLimitMessage, paramLimitMessage]

/-- A request that produced the global denial had its global `Allow` deny. -/
theorem globalDeny_inversion {ip raw : String} {now : ℚ} {s : MWState}
    (h : (RateLimitMiddleware ip raw now s).1 = globalDenyResult) :
    ((touchedState ip (normParam raw) now s).allowGlobal ip now).1 = false := by
  by_contra hne
  rw [Bool.not_eq_false] at hne
  rcases hp : ((((touchedState ip (normParam raw) now s).allowGlobal ip now).2).allowParam
      ip (normParam raw) now).1 with _ | _
  · rw [rateLimit_eq_paramDeny hne hp] at h
    exact denyResults_distinct.1 h.symm
  · rw [rateLimit_eq_forwarded hne hp] at h
    exact denyResults_distinct.2.1 h

/-- Two-level lookup into the param registry: the bucket stored for a
(client, parameter) pair, `paramVisitors[ip][param]` in Go. -/
def plookup (ip p : String) (l : List (String × List (String × ParamVisitor))) :
    Option ParamVisitor :=
  match alookup ip l with
  | none => none
  | some inner => alookup p inner

/-- After `touchInner` for a parameter, that parameter has an entry. -/
theorem alookup_touchInner_self (p : String) (now : ℚ)
    (inner : List (String × ParamVisitor)) :
    ∃ pv, alookup p (touchInner p now inner) = some pv := by
  unfold touchInner
  cases h : alookup p inner with
  | none => exact ⟨⟨rateNewLimiter (2 / 60) 2 now, now⟩, by simp [alookup]⟩
  | some v => exact ⟨{ v with lastSeen := now }, alookup_aset_some _ h⟩

/-- After `getParamLimiter(ip, p)`, the pair `(ip, p)` has an entry in the
param registry. -/
theorem plookup_touchParam_self (ip p : String) (now : ℚ) (s : MWState) :
    ∃ pv, plookup ip p (touchParam ip p now s).paramVisitors = some pv := by
  unfold touchParam plookup
  cases h : alookup ip s.paramVisitors with
  | none =>
      obtain ⟨pv, hpv⟩ := alookup_touchInner_self p now []
      refine ⟨pv, ?_⟩
      simp only [h, alookup]
      simpa using hpv
  | some inner =>
      obtain ⟨pv, hpv⟩ := alookup_touchInner_self p now inner
      refine ⟨pv, ?_⟩
      have h1 := alookup_aset_some (touchInner p now inner) h
      simp only [h, h1]
      exact hpv

/-- The param-tier `Allow` call keeps its own pair present. -/
theorem plookup_allowParam_self {s : MWState} {ip p : String} {now : ℚ} {pv : ParamVisitor}
    (h : plookup ip p s.paramVisitors = some pv) :
    ∃ pv2, plookup ip p ((s.allowParam ip p now).2).paramVisitors = some pv2 := by
  unfold plookup at h
  rcases ho : alookup ip s.paramVisitors with _ | inner
  · rw [ho] at h; simp at h
  · rw [ho] at h
    have hin : alookup p inner = some pv := h
    refine ⟨{ pv with limiter := (pv.limiter.allow now).2 }, ?_⟩
    unfold MWState.allowParam
    have h1 := alookup_aset_some
      (aset p { pv with limiter := (pv.limiter.allow now).2 } inner) ho
    have h2 := alookup_aset_some { pv with limiter := (pv.limiter.allow now).2 } hin
    simp only [ho, hin]
    simp [plookup, h1, h2]

/-- Every request installs (or keeps) a param-registry entry for its own
normalized parameter key, whatever the admission outcome. -/
theorem plookup_after_request (ip raw : String) (now : ℚ) (s : MWState) :
    ∃ pv, plookup ip (normParam raw)
      ((RateLimitMiddleware ip raw now s).2).paramVisitors = some pv := by
  obtain ⟨pv0, hpv0⟩ := plookup_touchParam_self ip (normParam raw) now (touchGlobal ip now s)
  rcases hg : ((touchedState ip (normParam raw) now s).allowGlobal ip now).1 with _ | _
  · rw [rateLimit_eq_globalDeny hg]
    rw [allowGlobal_paramVisitors]
    exact ⟨pv0, hpv0⟩
  · have hpres : plookup ip (normParam raw)
        (((touchedState ip (normParam raw) now s).allowGlobal ip now).2).paramVisitors =
          some pv0 := by
      rw [allowGlobal_paramVisitors]; exact hpv0
    rcases hp : ((((touchedState ip (normParam raw) now s).allowGlobal ip now).2).allowParam
        ip (normParam raw) now).1 with _ | _
    · rw [rateLimit_eq_paramDeny hg hp]
      exact plookup_allowParam_self hpres
    · rw [rateLimit_eq_forwarded hg hp]
      exact plookup_allowParam_self hpres

/-- Claim C7: a request whose configured parameter field is missing or empty
(extracted raw value `""`) is admitted through the fixed sentinel key
`"__none__"`: the middleware behaves identically to an explicit `"__none__"`
request, and after such a request the client's param registry holds an entry
under the sentinel key — all parameter-less requests of one client share that
single bucket. -/
theorem missing_param_uses_sentinel_bucket :
    (∀ (ip : String) (t : ℚ) (s : MWState),
        RateLimitMiddleware ip "" t s = RateLimitMiddleware ip "__none__" t s) ∧
    (∀ (ip : String) (t : ℚ) (s : MWState),
        ∃ pv, plookup ip "__none__"
          ((RateLimitMiddleware ip "" t s).2).paramVisitors = some pv) := by
  constructor
  · intro ip t s
    rfl
  · intro ip t s
    have h := plookup_after_request ip "" t s
    simpa [normParam] using h

/-- Claim C8: `ResetVisitors` erases all limiter state, so replaying any
request sequence after a reset reproduces exactly the outcome sequence of any
earlier run that also started from cleared registries — outcomes depend only
on the requests (identities, parameter values, times), not on the
pre-reset state. -/
theorem reset_replay_deterministic (s1 s2 : MWState) (reqs : List Request) :
    (mwRun reqs (ResetVisitors s1)).1 = (mwRun reqs (ResetVisitors s2)).1 := rfl

/-- Running `getGlobalLimiter` on a known client only refreshes `lastSeen`. -/
theorem alookup_touchGlobal_some {ip : String} {t : ℚ} {s : MWState} {v : Visitor}
    (h : alookup ip s.globalVisitors = some v) :
    alookup ip (touchGlobal ip t s).globalVisitors = some { v with lastSeen := t } := by
  unfold touchGlobal
  simp only [h]
  exact alookup_aset_some _ h

/-- Running `getGlobalLimiter` on a fresh client installs a full hard-coded
10-per-minute, burst-10 bucket. -/
theorem alookup_touchGlobal_none {ip : String} {t : ℚ} {s : MWState}
    (h : alookup ip s.globalVisitors = none) :
    alookup ip (touchGlobal ip t s).globalVisitors =
      some ⟨rateNewLimiter (10 / 60) 10 t, t⟩ := by
  unfold touchGlobal
  simp only [h]
  simp [alookup]

/-- The global `Allow` call, spelled out when the client's entry is known. -/
theorem allowGlobal_of_lookup {s : MWState} {ip : String} {now : ℚ} {v : Visitor}
    (h : alookup ip s.globalVisitors = some v) :
    s.allowGlobal ip now =
      ((v.limiter.allow now).1,
        { s with globalVisitors := aset ip { v with limiter := (v.limiter.allow now).2 } s.globalVisitors }) := by
  unfold MWState.allowGlobal
  simp only [h]

/-- An `Allow` grants exactly when the refilled token count reaches one. -/
theorem Limiter.allow_fst (l : Limiter) (now : ℚ) :
    (l.allow now).1 = true ↔ 1 ≤ l.advance now := by
  unfold Limiter.allow
  by_cases h : 1 ≤ l.advance now <;> simp [h]

/-- Claim C5: whenever the client's global bucket and the relevant param
bucket both hold fewer than one (refilled) token at the request time, the
denial is the global one — 429 with message "Too Many Requests (global
limit)" — never the per-param one, because the global bucket is evaluated
first. -/
theorem both_exhausted_denies_global (ip raw : String) (t : ℚ) (s : MWState)
    (v : Visitor) (pv : ParamVisitor)
    (hgv : alookup ip s.globalVisitors = some v)
    (hglo : v.limiter.advance t < 1)
    (hpv : plookup ip (normParam raw) s.paramVisitors = some pv)
    (hplo : pv.limiter.advance t < 1) :
    (RateLimitMiddleware ip raw t s).1 = globalDenyResult := by
  have htouch : alookup ip (touchedState ip (normParam raw) t s).globalVisitors =
      some { v with lastSeen := t } := by
    unfold touchedState
    rw [touchParam_globalVisitors]
    exact alookup_touchGlobal_some hgv
  have hfalse : ((touchedState ip (normParam raw) t s).allowGlobal ip t).1 = false := by
    rw [allowGlobal_of_lookup htouch]
    have hnot : ¬ (1 ≤ v.limiter.advance t) := not_le.mpr hglo
    simp [Limiter.allow, hnot]
  rw [rateLimit_eq_globalDeny hfalse]

/-- Concrete instance of `both_exhausted_denies_global`: a client whose
global bucket and whose bucket for parameter "x" are both empty is denied
with the global-limit response. -/
theorem both_exhausted_denies_global_witness :
    (RateLimitMiddleware "a" "x" 0
        ⟨[("a", ⟨⟨10 / 60, 10, 0, 0⟩, 0⟩)],
          [("a", [("x", ⟨⟨2 / 60, 2, 0, 0⟩, 0⟩)])]⟩).1 = globalDenyResult :=
  both_exhausted_denies_global "a" "x" 0 _ ⟨⟨10 / 60, 10, 0, 0⟩, 0⟩ ⟨⟨2 / 60, 2, 0, 0⟩, 0⟩
    (by simp [alookup])
    (by norm_num [Limiter.advance, min_def, max_def])
    (by simp [plookup, alookup, normParam])
    (by norm_num [Limiter.advance, min_def, max_def])

/-- Claim C6: one sweep pass, observing time `now`, removes exactly the
entries idle strictly longer than the hard-coded 3-minute (180 s) timeout:
a global or param entry with `now - lastSeen > 180` is absent afterwards,
and one with `now - lastSeen ≤ 180` — including exactly 180 — survives. -/
theorem sweep_evicts_exactly_stale (now : ℚ) (s : MWState) :
    (∀ (ip : String) (v : Visitor), 180 < now - v.lastSeen →
        (ip, v) ∉ (cleanupGlobalVisitorsPass now s).globalVisitors) ∧
    (∀ (ip : String) (v : Visitor), (ip, v) ∈ s.globalVisitors → now - v.lastSeen ≤ 180 →
        (ip, v) ∈ (cleanupGlobalVisitorsPass now s).globalVisitors) ∧
    (∀ (ip p : String) (pv : ParamVisitor) (inner : List (String × ParamVisitor)),
        180 < now - pv.lastSeen →
        (ip, inner) ∈ (cleanupParamVisitorsPass now s).paramVisitors → (p, pv) ∉ inner) ∧
    (∀ (ip p : String) (pv : ParamVisitor) (inner : List (String × ParamVisitor)),
        (ip, inner) ∈ s.paramVisitors → (p, pv) ∈ inner → now - pv.lastSeen ≤ 180 →
        ∃ inner2, (ip, inner2) ∈ (cleanupParamVisitorsPass now s).paramVisitors ∧
          (p, pv) ∈ inner2) := by
  refine ⟨?_, ?_, ?_, ?_⟩
  · intro ip v hst hmem
    simp only [cleanupGlobalVisitorsPass, List.mem_filter] at hmem
    have := hmem.2
    simp [hst] at this
  · intro ip v hmem hfresh
    simp only [cleanupGlobalVisitorsPass, List.mem_filter]
    exact ⟨hmem, by simp [not_lt.mpr hfresh]⟩
  · intro ip p pv inner hst hmem hpin
    simp only [cleanupParamVisitorsPass, List.mem_filter, List.mem_map] at hmem
    obtain ⟨⟨e, he, heq⟩, _⟩ := hmem
    have hin2 : (p, pv) ∈ e.2.filter (fun pe => !decide (180 < now - pe.2.lastSeen)) := by
      have : inner = e.2.filter (fun pe => !decide (180 < now - pe.2.lastSeen)) := by
        have := congrArg Prod.snd heq
        simpa using this.symm
      rwa [this] at hpin
    rw [List.mem_filter] at hin2
    have := hin2.2
    simp [hst] at this
  · intro ip p pv inner hmem hpin hfresh
    refine ⟨inner.filter (fun pe => !decide (180 < now - pe.2.lastSeen)), ?_, ?_⟩
    · simp only [cleanupParamVisitorsPass, List.mem_filter, List.mem_map]
      constructor
      · exact ⟨(ip, inner), hmem, rfl⟩
      · have hpm : (p, pv) ∈ inner.filter (fun pe => !decide (180 < now - pe.2.lastSeen)) :=
          List.mem_filter.mpr ⟨hpin, by simp [not_lt.mpr hfresh]⟩
        have hne : inner.filter (fun pe => !decide (180 < now - pe.2.lastSeen)) ≠ [] :=
          List.ne_nil_of_mem hpm
        simpa [List.isEmpty_iff] using hne
    · exact List.mem_filter.mpr ⟨hpin, by simp [not_lt.mpr hfresh]⟩

/-- Concrete instance of `sweep_evicts_exactly_stale`: at time 200, a global
entry last seen at 0 (idle 200 s > 180 s) is gone after the sweep, while one
last seen at 20 (idle exactly 180 s) survives it. -/
theorem sweep_evicts_exactly_stale_witness :
    ("stale", (⟨⟨10 / 60, 10, 0, 0⟩, 0⟩ : Visitor)) ∉
      (cleanupGlobalVisitorsPass 200
        ⟨[("stale", ⟨⟨10 / 60, 10, 0, 0⟩, 0⟩), ("fresh", ⟨⟨10 / 60, 10, 10, 20⟩, 20⟩)], []⟩).globalVisitors ∧
    ("fresh", (⟨⟨10 / 60, 10, 10, 20⟩, 20⟩ : Visitor)) ∈
      (cleanupGlobalVisitorsPass 200
        ⟨[("stale", ⟨⟨10 / 60, 10, 0, 0⟩, 0⟩), ("fresh", ⟨⟨10 / 60, 10, 10, 20⟩, 20⟩)], []⟩).globalVisitors :=
  ⟨(sweep_evicts_exactly_stale 200 _).1 "stale" _ (by norm_num),
   (sweep_evicts_exactly_stale 200 _).2.1 "fresh" _ (by simp) (by norm_num)⟩

/-- Call `getParamLimiter` reads and writes only the param registry, so its effect
there is the same from two states agreeing on that registry. -/
theorem touchParam_paramVisitors_congr {s1 s2 : MWState}
    (h : s1.paramVisitors = s2.paramVisitors) (ip p : String) (t : ℚ) :
    (touchParam ip p t s1).paramVisitors = (touchParam ip p t s2).paramVisitors := by
  unfold touchParam
  rw [h]
  cases alookup ip s2.paramVisitors <;> rfl

/-- The preceding `getGlobalLimiter` call does not influence what
`getParamLimiter` does to the param registry. -/
theorem touchParam_of_touchGlobal (ip p : String) (t : ℚ) (s : MWState) :
    (touchParam ip p t (touchGlobal ip t s)).paramVisitors =
      (touchParam ip p t s).paramVisitors :=
  touchParam_paramVisitors_congr (touchGlobal_paramVisitors ip t s) ip p t

/-- On a globally denied request the final param registry is exactly the
`getParamLimiter` (getOrCreate) effect on the initial one: the param-tier
`Allow` never ran. -/
theorem globalDeny_paramVisitors (ip raw : String) (t : ℚ) (s : MWState)
    (h : (RateLimitMiddleware ip raw t s).1 = globalDenyResult) :
    ((RateLimitMiddleware ip raw t s).2).paramVisitors =
      (touchParam ip (normParam raw) t s).paramVisitors := by
  have hf := globalDeny_inversion h
  rw [rateLimit_eq_globalDeny hf]
  show (((touchedState ip (normParam raw) t s).allowGlobal ip t).2).paramVisitors = _
  rw [allowGlobal_paramVisitors]
  exact touchParam_of_touchGlobal ip (normParam raw) t s

/-- Call `getParamLimiter` never changes any stored limiter: every pre-existing
(client, parameter) bucket keeps its limiter verbatim (only `lastSeen` can
change, and only on the touched pair). -/
theorem plookup_touchParam_preserves (ip p : String) (t : ℚ) (s : MWState)
    (a b : String) {pv : ParamVisitor}
    (h : plookup a b s.paramVisitors = some pv) :
    ∃ pv2, plookup a b (touchParam ip p t s).paramVisitors = some pv2 ∧
      pv2.limiter = pv.limiter := by
  unfold plookup at h
  rcases ha : alookup a s.paramVisitors with _ | innerA
  · rw [ha] at h; simp at h
  · rw [ha] at h
    have hb : alookup b innerA = some pv := h
    unfold touchParam plookup
    rcases hip : alookup ip s.paramVisitors with _ | inner0
    · have hne : a ≠ ip := by
        intro heq; rw [heq, hip] at ha; exact Option.noConfusion ha
      refine ⟨pv, ?_, rfl⟩
      simp only [hip]
      simp only [alookup, if_neg hne, ha]
      exact hb
    · by_cases hai : a = ip
      · subst hai
        have hinner : inner0 = innerA := by
          rw [ha] at hip; exact (Option.some.inj hip).symm
        subst hinner
        have h1 := alookup_aset_some (touchInner p t inner0) hip
        simp only [hip, h1]
        unfold touchInner
        rcases hp0 : alookup p inner0 with _ | v
        · have hbp : b ≠ p := by
            intro heq; rw [heq, hp0] at hb; exact Option.noConfusion hb
          refine ⟨pv, ?_, rfl⟩
          simp only [alookup, if_neg hbp]
          exact hb
        · by_cases hbp : b = p
          · subst hbp
            have hveq : pv = v := by rw [hb] at hp0; exact Option.some.inj hp0
            subst hveq
            exact ⟨{ pv with lastSeen := t }, alookup_aset_some _ hp0, rfl⟩
          · rw [alookup_aset_ne _ _ hbp]
            exact ⟨pv, hb, rfl⟩
      · refine ⟨pv, ?_, rfl⟩
        simp only [hip]
        rw [alookup_aset_ne _ _ hai, ha]
        exact hb

/-- Claim C10: a request denied at the global tier consumes no token from any
param-tier bucket — the param `Allow` is never invoked on it, so every
pre-existing (client, parameter) bucket keeps its limiter verbatim, and in
particular its refilled token count at the request time is unchanged. -/
theorem globalDeny_no_param_token_consumed (ip raw : String) (t : ℚ) (s : MWState)
    (hdeny : (RateLimitMiddleware ip raw t s).1 = globalDenyResult) :
    ∀ (a b : String) (pv : ParamVisitor), plookup a b s.paramVisitors = some pv →
      ∃ pv2, plookup a b ((RateLimitMiddleware ip raw t s).2).paramVisitors = some pv2 ∧
        pv2.limiter = pv.limiter ∧ pv2.limiter.advance t = pv.limiter.advance t := by
  intro a b pv h
  rw [globalDeny_paramVisitors ip raw t s hdeny]
  obtain ⟨pv2, h1, h2⟩ := plookup_touchParam_preserves ip (normParam raw) t s a b h
  exact ⟨pv2, h1, h2, by rw [h2]⟩

/-- A registry state in which client "a" has an empty global bucket (0 tokens
as of time 0) and no param-tier entries. -/
def exhaustedGlobalState : MWState := ⟨[("a", ⟨⟨10 / 60, 10, 0, 0⟩, 0⟩)], []⟩

/-- A registry state in which client "a" has an empty global bucket and an
existing param bucket for "y" holding 1 token. -/
def exhaustedWithParamState : MWState :=
  ⟨[("a", ⟨⟨10 / 60, 10, 0, 0⟩, 0⟩)], [("a", [("y", ⟨⟨2 / 60, 2, 1, 0⟩, 0⟩)])]⟩

/-- Counterexample to claim C1 as stated: a request by a client with an
exhausted global bucket and a never-seen parameter "x" is denied at the
global tier, YET a fresh ParamVisitor for ("a", "x") exists afterwards —
`getParamLimiter` runs before the global check (rate_limiter.go lines
159–161), so the global denial does not prevent param-registry mutation. -/
theorem param_visitor_created_despite_global_denial :
    (RateLimitMiddleware "a" "x" 0 exhaustedGlobalState).1 = globalDenyResult ∧
    plookup "a" "x" ((RateLimitMiddleware "a" "x" 0 exhaustedGlobalState).2).paramVisitors =
      some ⟨rateNewLimiter (2 / 60) 2 0, 0⟩ := by
  constructor
  · simp [RateLimitMiddleware, normParam, touchGlobal, touchParam, touchInner,
      MWState.allowGlobal, MWState.allowParam, alookup, aset, rateNewLimiter,
      Limiter.allow, Limiter.advance, exhaustedGlobalState, min_def, max_def]
    norm_num
  · simp [RateLimitMiddleware, normParam, touchGlobal, touchParam, touchInner,
      MWState.allowGlobal, MWState.allowParam, alookup, aset, rateNewLimiter,
      Limiter.allow, Limiter.advance, exhaustedGlobalState, plookup, min_def, max_def]

/-- Claim C1 (amended): for every request whose global-tier check denies, the
middleware short-circuits with the global-limit response without invoking the
param bucket's `Allow` — the final param registry is exactly the
`getParamLimiter` getOrCreate effect, so no param token is consumed; however,
because `getParamLimiter` runs before the global check, the request DOES
create the ParamVisitor for its key (or update its `lastSeen`). -/
theorem globalDeny_short_circuits_after_registry_touch (ip raw : String) (t : ℚ)
    (s : MWState)
    (hdeny : (RateLimitMiddleware ip raw t s).1 = globalDenyResult) :
    ((RateLimitMiddleware ip raw t s).2).paramVisitors =
      (touchParam ip (normParam raw) t s).paramVisitors ∧
    ∃ pv, plookup ip (normParam raw)
      ((RateLimitMiddleware ip raw t s).2).paramVisitors = some pv :=
  ⟨globalDeny_paramVisitors ip raw t s hdeny, plookup_after_request ip raw t s⟩

/-- Concrete instance of `globalDeny_short_circuits_after_registry_touch` at
the exhausted-client state. -/
theorem globalDeny_short_circuits_after_registry_touch_witness :
    ((RateLimitMiddleware "a" "x" 0 exhaustedGlobalState).2).paramVisitors =
      (touchParam "a" (normParam "x") 0 exhaustedGlobalState).paramVisitors ∧
    ∃ pv, plookup "a" (normParam "x")
      ((RateLimitMiddleware "a" "x" 0 exhaustedGlobalState).2).paramVisitors = some pv :=
  globalDeny_short_circuits_after_registry_touch "a" "x" 0 exhaustedGlobalState (by
    simp [RateLimitMiddleware, normParam, touchGlobal, touchParam, touchInner,
      MWState.allowGlobal, MWState.allowParam, alookup, aset, rateNewLimiter,
      Limiter.allow, Limiter.advance, exhaustedGlobalState, min_def, max_def]
    norm_num)

/-- Concrete instance of `globalDeny_no_param_token_consumed`: client "a" is
globally denied on parameter "x" while its existing bucket for "y" keeps its
single token. -/
theorem globalDeny_no_param_token_consumed_witness :
    ∃ pv2, plookup "a" "y"
        ((RateLimitMiddleware "a" "x" 0 exhaustedWithParamState).2).paramVisitors = some pv2 ∧
      pv2.limiter = (⟨2 / 60, 2, 1, 0⟩ : Limiter) ∧
      pv2.limiter.advance 0 = Limiter.advance ⟨2 / 60, 2, 1, 0⟩ 0 :=
  globalDeny_no_param_token_consumed "a" "x" 0 exhaustedWithParamState
    (by
      simp [RateLimitMiddleware, normParam, touchGlobal, touchParam, touchInner,
        MWState.allowGlobal, MWState.allowParam, alookup, aset, rateNewLimiter,
        Limiter.allow, Limiter.advance, exhaustedWithParamState, min_def, max_def]
      norm_num)
    "a" "y" ⟨⟨2 / 60, 2, 1, 0⟩, 0⟩
    (by simp [plookup, alookup, exhaustedWithParamState])

/-- Shorthand: a global-tier visitor holding `tok` tokens, fully observed at
time `t` (its bucket is the hard-coded 10-per-minute, burst-10 one). -/
def gVis (tok t : ℚ) : Visitor := ⟨⟨10 / 60, 10, tok, t⟩, t⟩

/-- Shorthand: a param-tier visitor holding `tok` tokens, fully observed at
time `t` (its bucket is the hard-coded 2-per-minute, burst-2 one). -/
def pVis (tok t : ℚ) : ParamVisitor := ⟨⟨2 / 60, 2, tok, t⟩, t⟩

/-- First request of a client unknown to both registries: forwarded, leaving
9 global tokens and a param bucket for its key holding 1 token, both stored
in front of the untouched rest of the registries. -/
theorem step_fresh_client (ip raw : String) (t : ℚ) (s : MWState)
    (hg : alookup ip s.globalVisitors = none)
    (hp : alookup ip s.paramVisitors = none) :
    RateLimitMiddleware ip raw t s =
      (.forwarded, ⟨(ip, gVis 9 t) :: s.globalVisitors,
        (ip, [(normParam raw, pVis 1 t)]) :: s.paramVisitors⟩) := by
  simp [RateLimitMiddleware, touchGlobal, touchParam, touchInner, MWState.allowGlobal,
    MWState.allowParam, alookup, aset, hg, hp, rateNewLimiter, Limiter.allow,
    Limiter.advance, gVis, pVis, min_def, max_def]
  norm_num

/-- Second request to the same parameter: forwarded, emptying the param
bucket. -/
theorem step_second_same_param (ip raw : String) (t : ℚ)
    (grest : List (String × Visitor))
    (prest : List (String × List (String × ParamVisitor))) :
    RateLimitMiddleware ip raw t
        ⟨(ip, gVis 9 t) :: grest, (ip, [(normParam raw, pVis 1 t)]) :: prest⟩ =
      (.forwarded, ⟨(ip, gVis 8 t) :: grest, (ip, [(normParam raw, pVis 0 t)]) :: prest⟩) := by
  simp [RateLimitMiddleware, touchGlobal, touchParam, touchInner, MWState.allowGlobal,
    MWState.allowParam, alookup, aset, rateNewLimiter, Limiter.allow, Limiter.advance,
    gVis, pVis, min_def, max_def]
  norm_num

/-- Third request to the same parameter: the param bucket is empty while the
global bucket still grants, so the request draws a global token and is then
denied with the per-param response. -/
theorem step_third_same_param (ip raw : String) (t : ℚ)
    (grest : List (String × Visitor))
    (prest : List (String × List (String × ParamVisitor))) :
    RateLimitMiddleware ip raw t
        ⟨(ip, gVis 8 t) :: grest, (ip, [(normParam raw, pVis 0 t)]) :: prest⟩ =
      (paramDenyResult, ⟨(ip, gVis 7 t) :: grest, (ip, [(normParam raw, pVis 0 t)]) :: prest⟩) := by
  simp [RateLimitMiddleware, touchGlobal, touchParam, touchInner, MWState.allowGlobal,
    MWState.allowParam, alookup, aset, rateNewLimiter, Limiter.allow, Limiter.advance,
    gVis, pVis, min_def, max_def]
  norm_num

/-- Claim C4: for a fresh (client, parameter) pair — the client unknown to
both registries, whatever else they hold — under the default param
configuration (2 per minute, burst 2), the first 2 immediate requests to that
parameter are forwarded and the 3rd immediate request to the same parameter
is denied with 429 and the per-param message, while the client's global
bucket still holds tokens (7 of 10 remain). -/
theorem param_burst_exhaustion (ip raw : String) (t : ℚ) (s : MWState)
    (hg : alookup ip s.globalVisitors = none)
    (hp : alookup ip s.paramVisitors = none) :
    (mwRun [⟨ip, raw, t⟩, ⟨ip, raw, t⟩, ⟨ip, raw, t⟩] s).1 =
      [.forwarded, .forwarded, paramDenyResult] ∧
    ∃ v, alookup ip
        ((mwRun [⟨ip, raw, t⟩, ⟨ip, raw, t⟩, ⟨ip, raw, t⟩] s).2).globalVisitors =
        some v ∧ v.limiter.tokens = 7 ∧ (0 : ℚ) < v.limiter.tokens := by
  have h1 := step_fresh_client ip raw t s hg hp
  have h2 := step_second_same_param ip raw t s.globalVisitors s.paramVisitors
  have h3 := step_third_same_param ip raw t s.globalVisitors s.paramVisitors
  refine ⟨?_, gVis 7 t, ?_, by simp [gVis], by norm_num [gVis]⟩
  · simp [mwRun, h1, h2, h3]
  · simp [mwRun, h1, h2, h3, alookup]

/-- Concrete instance of `param_burst_exhaustion` from the empty state. -/
theorem param_burst_exhaustion_witness :
    (mwRun [⟨"a", "x", 0⟩, ⟨"a", "x", 0⟩, ⟨"a", "x", 0⟩] MWState.empty).1 =
      [.forwarded, .forwarded, paramDenyResult] ∧
    ∃ v, alookup "a"
        ((mwRun [⟨"a", "x", 0⟩, ⟨"a", "x", 0⟩, ⟨"a", "x", 0⟩] MWState.empty).2).globalVisitors =
        some v ∧ v.limiter.tokens = 7 ∧ (0 : ℚ) < v.limiter.tokens :=
  param_burst_exhaustion "a" "x" 0 MWState.empty rfl rfl

/-- One request from a client at the head of both registries, against a
parameter key not yet in its param map, while its global bucket holds `g`
tokens (1 ≤ g ≤ 10): forwarded, one global token drawn, a fresh param bucket
left with 1 token. -/
theorem step_oneClient_fresh (ip raw : String) (t g : ℚ)
    (inner : List (String × ParamVisitor))
    (grest : List (String × Visitor))
    (prest : List (String × List (String × ParamVisitor)))
    (hg1 : 1 ≤ g) (hg10 : g ≤ 10)
    (hfresh : alookup (normParam raw) inner = none) :
    RateLimitMiddleware ip raw t ⟨(ip, gVis g t) :: grest, (ip, inner) :: prest⟩ =
      (.forwarded, ⟨(ip, gVis (g - 1) t) :: grest,
        (ip, (normParam raw, pVis 1 t) :: inner) :: prest⟩) := by
  have hadv : Limiter.advance ⟨10 / 60, 10, g, t⟩ t = g := by
    simp [Limiter.advance]
    exact hg10
  have hallowG : Limiter.allow ⟨10 / 60, 10, g, t⟩ t = (true, ⟨10 / 60, 10, g - 1, t⟩) := by
    simp [Limiter.allow, hadv, hg1]
  have hallowP : Limiter.allow ⟨2 / 60, 2, 2, t⟩ t = (true, ⟨2 / 60, 2, 1, t⟩) := by
    simp [Limiter.allow, Limiter.advance, min_def, max_def]
    norm_num
  simp [RateLimitMiddleware, touchGlobal, touchParam, touchInner, MWState.allowGlobal,
    MWState.allowParam, alookup, aset, hfresh, hallowG, hallowP, gVis, pVis, rateNewLimiter]

/-- One request from a client at the head of both registries while its global
bucket is empty: denied with the global-limit response, whatever the param
maps hold. -/
theorem step_oneClient_globalDeny (ip raw : String) (t : ℚ)
    (inner : List (String × ParamVisitor))
    (grest : List (String × Visitor))
    (prest : List (String × List (String × ParamVisitor))) :
    (RateLimitMiddleware ip raw t ⟨(ip, gVis 0 t) :: grest, (ip, inner) :: prest⟩).1 =
      globalDenyResult := by
  have hadv : Limiter.advance ⟨10 / 60, 10, 0, t⟩ t = 0 := by
    simp [Limiter.advance]
  have hallowG : Limiter.allow ⟨10 / 60, 10, 0, t⟩ t = (false, ⟨10 / 60, 10, 0, t⟩) := by
    simp [Limiter.allow, hadv]
  simp [RateLimitMiddleware, touchGlobal, touchParam, touchInner, MWState.allowGlobal,
    MWState.allowParam, alookup, aset, hallowG, gVis, rateNewLimiter]

/-- Runs of `mwRun` distribute over request-list concatenation. -/
theorem mwRun_append (xs ys : List Request) (s : MWState) :
    mwRun (xs ++ ys) s =
      ((mwRun xs s).1 ++ (mwRun ys (mwRun xs s).2).1, (mwRun ys (mwRun xs s).2).2) := by
  induction xs generalizing s with
  | nil => simp [mwRun]
  | cons x xs ih => simp [mwRun, ih]

/-- Running a batch of requests with pairwise-distinct, all-fresh parameter
keys and enough global tokens: every request is forwarded, each draws one
global token, and each installs a 1-token param bucket. -/
theorem run_oneClient_fresh_params (ip : String) (t : ℚ)
    (grest : List (String × Visitor))
    (prest : List (String × List (String × ParamVisitor))) :
    ∀ (qs : List String) (g : ℚ) (inner : List (String × ParamVisitor)),
      (qs.map normParam).Nodup →
      (∀ q ∈ qs, alookup (normParam q) inner = none) →
      (qs.length : ℚ) ≤ g → g ≤ 10 →
      mwRun (qs.map fun p => ⟨ip, p, t⟩) ⟨(ip, gVis g t) :: grest, (ip, inner) :: prest⟩ =
        (List.replicate qs.length .forwarded,
          ⟨(ip, gVis (g - qs.length) t) :: grest,
            (ip, (qs.map normParam).reverse.map (fun k => (k, pVis 1 t)) ++ inner) :: prest⟩) := by
  intro qs
  induction qs with
  | nil =>
      intro g inner _ _ _ _
      simp [mwRun]
  | cons q rest ih =>
      intro g inner hnd hfresh hlen hg10
      have hlen1 : (1 : ℚ) ≤ g := by
        have : ((rest.length + 1 : ℕ) : ℚ) ≤ g := by simpa using hlen
        have h1 : (1 : ℚ) ≤ ((rest.length + 1 : ℕ) : ℚ) := by exact_mod_cast Nat.succ_le_succ (Nat.zero_le _)
        linarith
      have hstep := step_oneClient_fresh ip q t g inner grest prest hlen1 hg10 (hfresh q (by simp))
      have hnd2 : (∀ x ∈ rest, ¬ normParam x = normParam q) ∧ (rest.map normParam).Nodup := by
        simpa using hnd
      have hndr : (rest.map normParam).Nodup := hnd2.2
      have hfresh2 : ∀ p ∈ rest, alookup (normParam p) ((normParam q, pVis 1 t) :: inner) = none := by
        intro p hp
        have hneq : normParam p ≠ normParam q := hnd2.1 p hp
        simp only [alookup, if_neg hneq]
        exact hfresh p (List.mem_cons_of_mem q hp)
      have hlen2 : ((rest.length : ℕ) : ℚ) ≤ g - 1 := by
        have : ((rest.length + 1 : ℕ) : ℚ) ≤ g := by simpa using hlen
        push_cast at this ⊢
        linarith
      have hg10b : g - 1 ≤ 10 := by linarith
      have hrest := ih (g - 1) ((normParam q, pVis 1 t) :: inner) hndr hfresh2 hlen2 hg10b
      simp only [List.map_cons, mwRun, hstep, hrest]
      refine Prod.ext ?_ ?_
      · simp [List.replicate_succ]
      · have harith : g - 1 - (rest.length : ℚ) = g - ((rest.length : ℚ) + 1) := by ring
        simp [harith, List.reverse_cons, List.map_append, List.length_cons]

/-- Claim C3: a client unknown to both registries — whatever else they hold —
issuing 11 immediate requests whose parameter values map to
pairwise-distinct bucket keys has its first 10 requests forwarded and the
11th denied with 429 and the global-limit message, under the default global
configuration (10 per minute, burst 10). -/
theorem global_burst_exhaustion (ip : String) (t : ℚ) (s : MWState) (ps : List String)
    (hlen : ps.length = 11) (hnd : (ps.map normParam).Nodup)
    (hg : alookup ip s.globalVisitors = none)
    (hp : alookup ip s.paramVisitors = none) :
    (mwRun (ps.map fun p => ⟨ip, p, t⟩) s).1 =
      List.replicate 10 MWResult.forwarded ++ [globalDenyResult] := by
  match ps, hlen with
  | p0 :: rest, hlen =>
    have hrlen : rest.length = 10 := by simpa using hlen
    have hrne : rest ≠ [] := by
      intro h; rw [h] at hrlen; simp at hrlen
    obtain ⟨mid, plast, hsplit⟩ : ∃ mid plast, rest = mid ++ [plast] :=
      ⟨rest.dropLast, rest.getLast hrne, (List.dropLast_append_getLast hrne).symm⟩
    have hmidlen : mid.length = 9 := by
      have := hrlen
      rw [hsplit] at this
      simpa using this
    subst hsplit
    -- distinctness unpacked
    have hnd2 : (normParam p0 :: (mid.map normParam ++ [normParam plast])).Nodup := by
      simpa using hnd
    have hk0 : normParam p0 ∉ mid.map normParam ++ [normParam plast] :=
      (List.nodup_cons.mp hnd2).1
    have hndmid : (mid.map normParam).Nodup :=
      ((List.nodup_cons.mp hnd2).2.sublist (List.sublist_append_left _ _))
    have hfreshmid : ∀ q ∈ mid, alookup (normParam q) [(normParam p0, pVis 1 t)] = none := by
      intro q hq
      have hne : normParam q ≠ normParam p0 := by
        intro he
        exact hk0 (List.mem_append_left _ (he ▸ List.mem_map_of_mem normParam hq))
      simp [alookup, if_neg hne]
    have hmid := run_oneClient_fresh_params ip t s.globalVisitors s.paramVisitors mid 9
      [(normParam p0, pVis 1 t)] hndmid hfreshmid (by rw [hmidlen]; norm_num) (by norm_num)
    have hglast : (9 : ℚ) - (mid.length : ℚ) = 0 := by
      rw [hmidlen]; norm_num
    have hlast := step_oneClient_globalDeny ip plast t
      ((mid.map normParam).reverse.map (fun k => (k, pVis 1 t)) ++ [(normParam p0, pVis 1 t)])
      s.globalVisitors s.paramVisitors
    -- assemble the run
    simp only [List.map_cons, mwRun, step_fresh_client ip p0 t s hg hp, List.map_append]
    rw [mwRun_append]
    rw [hmid]
    simp only [hglast]
    simp only [List.map_cons, List.map_nil, mwRun]
    rw [hlast]
    simp [hmidlen, List.replicate_succ]

/-- Concrete instance of `global_burst_exhaustion`: 11 immediate requests
with distinct parameter values from a fresh client, from the empty state. -/
theorem global_burst_exhaustion_witness :
    (mwRun ((["c0", "c1", "c2", "c3", "c4", "c5", "c6", "c7", "c8", "c9", "c10"]).map
        fun p => ⟨"1.2.3.4", p, 0⟩) MWState.empty).1 =
      List.replicate 10 MWResult.forwarded ++ [globalDenyResult] :=
  global_burst_exhaustion "1.2.3.4" 0 MWState.empty _ (by decide) (by decide) rfl rfl

/-- One worker's two atomic actions in the concurrent first-access scenario
of claim C9: the `getParamLimiter` critical section (getOrCreate under
`muParam`) and the subsequent `Allow` on the bucket it obtained.  Because
getOrCreate is a single critical section, the first worker to run it creates
the one stored bucket and every later worker obtains that same bucket, so
each `Allow` acts on the shared bucket (itself an atomic refill-and-decide
unit). -/
inductive PAct where
  | getOrCreate
  | allowCall
  deriving Repr, DecidableEq

/-- Shared state of the scenario: the (at most one) bucket stored for the
never-before-seen (client, parameter) pair, plus how many `Allow` calls have
been granted.  All N concurrent requests carry the same time `t`. -/
def pStep (t : ℚ) : Option Limiter × ℕ → PAct → Option Limiter × ℕ
  | (none, c), .getOrCreate => (some (rateNewLimiter (2 / 60) 2 t), c)
  | (some l, c), .getOrCreate => (some l, c)
  | (none, c), .allowCall => (none, c)
  | (some l, c), .allowCall =>
      let a := l.allow t
      (some a.2, if a.1 then c + 1 else c)

/-- Execute a schedule (one interleaving of the workers' atomic actions)
from the fresh-pair initial state. -/
def pRun (t : ℚ) (σ : List PAct) : Option Limiter × ℕ :=
  σ.foldl (pStep t) (none, 0)

/-- Schedule `σ` is an interleaving of `N` copies of the per-worker program
`[getOrCreate, allowCall]`: `N` of each action, and no initial segment with
more `allowCall`s than `getOrCreate`s (each worker's `Allow` comes after its
own getOrCreate; the workers are identical, so this prefix condition exactly
characterises their interleavings). -/
def isInterleaving (N : ℕ) (σ : List PAct) : Prop :=
  σ.count PAct.getOrCreate = N ∧ σ.count PAct.allowCall = N ∧
  ∀ k ≤ σ.length, (σ.take k).count PAct.allowCall ≤ (σ.take k).count PAct.getOrCreate

/-- Token count of the shared param bucket after `b` same-instant `Allow`
calls on it: 2, then 1, then 0 forever. -/
def tokAfter : ℕ → ℚ
  | 0 => 2
  | 1 => 1
  | _ + 2 => 0

/-- How many of `b` same-instant `Allow` calls on the shared param bucket are
granted: all of the first two, none after. -/
def grantedOf : ℕ → ℕ
  | 0 => 0
  | 1 => 1
  | _ + 2 => 2

/-- Value `grantedOf b` is exactly `min b 2`. -/
theorem grantedOf_eq_min (b : ℕ) : grantedOf b = min b 2 := by
  rcases b with _ | b
  · simp [grantedOf]
  · rcases b with _ | b
    · simp [grantedOf]
    · simp only [grantedOf]
      omega

/-- An `Allow` at the bucket's own `lastRefill` instant adds nothing: it
grants and decrements exactly when a token is available. -/
theorem Limiter.allow_self (r : ℚ) (b : ℤ) (tok t : ℚ) (h : tok ≤ (b : ℚ)) :
    Limiter.allow ⟨r, b, tok, t⟩ t =
      if 1 ≤ tok then (true, ⟨r, b, tok - 1, t⟩) else (false, ⟨r, b, tok, t⟩) := by
  have hadv : Limiter.advance ⟨r, b, tok, t⟩ t = tok := by
    simp [Limiter.advance]
    exact h
  simp [Limiter.allow, hadv]

/-- Invariant of the scenario: after any schedule in which `Allow`s never
outnumber getOrCreates, the store is empty only if no getOrCreate ran; with
`b` `Allow` calls so far the single bucket holds `tokAfter b` tokens and
exactly `grantedOf b` calls were granted. -/
theorem pRun_spec (t : ℚ) : ∀ σ : List PAct,
    (∀ k ≤ σ.length, (σ.take k).count PAct.allowCall ≤ (σ.take k).count PAct.getOrCreate) →
    pRun t σ =
      (if σ.count PAct.getOrCreate = 0 then none
       else some ⟨2 / 60, 2, tokAfter (σ.count PAct.allowCall), t⟩,
       grantedOf (σ.count PAct.allowCall)) := by
  intro σ
  induction σ using List.reverseRecOn with
  | nil => intro _; simp [pRun, tokAfter, grantedOf]
  | append_singleton σ act ih =>
      intro hpre
      have hpre2 : ∀ k ≤ σ.length,
          (σ.take k).count PAct.allowCall ≤ (σ.take k).count PAct.getOrCreate := by
        intro k hk
        have h2 := hpre k (by simp; omega)
        rwa [List.take_append_of_le_length hk] at h2
      have hrun : pRun t (σ ++ [act]) = pStep t (pRun t σ) act := by
        simp [pRun, List.foldl_append]
      rw [hrun, ih hpre2]
      rcases act with _ | _
      · -- a getOrCreate appended: Allow count unchanged, bucket unchanged or created full
        by_cases hz : σ.count PAct.getOrCreate = 0
        · have hb : σ.count PAct.allowCall = 0 := by
            have := hpre2 σ.length (le_refl _)
            simpa [hz] using this
          simp [hz, hb, pStep, rateNewLimiter, tokAfter, List.count_append]
        · simp [hz, pStep, List.count_append]
      · -- an Allow appended: some worker's getOrCreate already ran
        have hg1 : 1 ≤ σ.count PAct.getOrCreate := by
          have := hpre (σ ++ [PAct.allowCall]).length (le_refl _)
          rw [List.take_length] at this
          simp [List.count_append] at this
          omega
        have hz : ¬ σ.count PAct.getOrCreate = 0 := by omega
        have hstate : (if σ.count PAct.getOrCreate = 0 then none
              else some ⟨2 / 60, 2, tokAfter (σ.count PAct.allowCall), t⟩,
              grantedOf (σ.count PAct.allowCall)) =
            ((some ⟨2 / 60, 2, tokAfter (σ.count PAct.allowCall), t⟩ : Option Limiter),
              grantedOf (σ.count PAct.allowCall)) := by
          rw [if_neg hz]
        rw [hstate]
        rcases hb : σ.count PAct.allowCall with _ | b
        · have ha2 : Limiter.allow ⟨2 / 60, 2, 2, t⟩ t = (true, ⟨2 / 60, 2, 1, t⟩) := by
            rw [Limiter.allow_self (2 / 60) 2 2 t (by norm_num)]
            norm_num
          simp [pStep, ha2, hz, hb, List.count_append, grantedOf, tokAfter]
        · rcases b with _ | b
          · have ha2 : Limiter.allow ⟨2 / 60, 2, 1, t⟩ t = (true, ⟨2 / 60, 2, 0, t⟩) := by
              rw [Limiter.allow_self (2 / 60) 2 1 t (by norm_num)]
              norm_num
            simp [pStep, ha2, hz, hb, List.count_append, grantedOf, tokAfter]
          · have ha2 : Limiter.allow ⟨2 / 60, 2, 0, t⟩ t = (false, ⟨2 / 60, 2, 0, t⟩) := by
              rw [Limiter.allow_self (2 / 60) 2 0 t (by norm_num)]
              norm_num
            simp [pStep, ha2, hz, hb, List.count_append, grantedOf, tokAfter]

/-- Claim C9: `N` concurrent requests from one client to one
never-before-seen parameter value produce exactly `min N 2` granted `Allow`s
(and `N - min N 2` denials) under every interleaving of the workers' atomic
getOrCreate and `Allow` sections: the single-critical-section getOrCreate
never creates duplicate buckets, so burst capacity is never double-issued. -/
theorem concurrent_fresh_param_min_allows (N : ℕ) (t : ℚ) (σ : List PAct)
    (h : isInterleaving N σ) :
    (pRun t σ).2 = min N 2 := by
  obtain ⟨hg, ha, hpre⟩ := h
  rw [pRun_spec t σ hpre]
  simp only [ha]
  exact grantedOf_eq_min N

/-- Concrete instance of `concurrent_fresh_param_min_allows`: 3 concurrent
workers under one particular interleaving grant exactly 2 requests. -/
theorem concurrent_fresh_param_min_allows_witness :
    (pRun 0 [PAct.getOrCreate, PAct.getOrCreate, PAct.allowCall, PAct.getOrCreate,
      PAct.allowCall, PAct.allowCall]).2 = min 3 2 :=
  concurrent_fresh_param_min_allows 3 0 _ ⟨by decide, by decide, by decide⟩

/-- The default cleanup-timeout string parses to 3 minutes. -/
theorem parseDuration_3m : parseDuration "3m" = some 180 := by
  simp [parseDuration, parseDurationLoop, parseComponent, takeDigitsAux,
    takeFracAux, takeUnit, durationUnitSeconds]
  norm_num

/-- A configured "5m" parses to 5 minutes. -/
theorem parseDuration_5m : parseDuration "5m" = some 300 := by
  simp [parseDuration, parseDurationLoop, parseComponent, takeDigitsAux,
    takeFracAux, takeUnit, durationUnitSeconds]
  norm_num

/-- Counterexample to claim C2 as stated: with a configuration supplying a
nonzero, parsable global rate (20 per minute) and burst (20), the accessor
duly reports (20, 20), yet the bucket `getGlobalLimiter` creates for a fresh
client is the hard-coded `rate.NewLimiter(10.0/60.0, 10)` — the middleware
never consults the configuration, so the supplied value is not used. -/
theorem middleware_ignores_config :
    GetGlobalRateLimiterConfig ⟨"", 20, 20, 0, 0⟩ = (20, 20) ∧
    alookup "1.2.3.4" (touchGlobal "1.2.3.4" 0 MWState.empty).globalVisitors =
      some ⟨rateNewLimiter (10 / 60) 10 0, 0⟩ ∧
    rateNewLimiter (10 / 60) 10 0 ≠ specConfiguredGlobalLimiter ⟨"", 20, 20, 0, 0⟩ 0 := by
  refine ⟨by norm_num [GetGlobalRateLimiterConfig], ?_, ?_⟩
  · simp [touchGlobal, alookup, MWState.empty]
  · intro h
    have hb := congrArg Limiter.burst h
    simp [rateNewLimiter, specConfiguredGlobalLimiter, GetGlobalRateLimiterConfig] at hb

/-- Claim C2 (amended): the configuration accessors implement
optional-with-default — each rate/burst falls back to its documented default
(10/10 global, 2/2 param) exactly when viper reports a zero raw value
(absent, zero-valued, or unparsable), and the cleanup timeout falls back to
3 minutes when the setting is empty or unparsable while a parsable setting is
used as supplied; the middleware, however, never reads them: it creates
buckets equal to the spec-configured ones for the DEFAULT configuration
regardless of the actual configuration, and a request is never failed over
configuration — every request either forwards or is denied by one of the two
limits. -/
theorem config_defaults_and_middleware_constants :
    (∀ c : ViperConfig, c.globalRateRaw = 0 → (GetGlobalRateLimiterConfig c).1 = 10) ∧
    (∀ c : ViperConfig, c.globalRateRaw ≠ 0 →
        (GetGlobalRateLimiterConfig c).1 = c.globalRateRaw) ∧
    (∀ c : ViperConfig, c.globalBurstRaw = 0 → (GetGlobalRateLimiterConfig c).2 = 10) ∧
    (∀ c : ViperConfig, c.globalBurstRaw ≠ 0 →
        (GetGlobalRateLimiterConfig c).2 = c.globalBurstRaw) ∧
    (∀ c : ViperConfig, c.paramRateRaw = 0 → (GetParamRateLimiterConfig c).1 = 2) ∧
    (∀ c : ViperConfig, c.paramRateRaw ≠ 0 →
        (GetParamRateLimiterConfig c).1 = c.paramRateRaw) ∧
    (∀ c : ViperConfig, c.paramBurstRaw = 0 → (GetParamRateLimiterConfig c).2 = 2) ∧
    (∀ c : ViperConfig, c.paramBurstRaw ≠ 0 →
        (GetParamRateLimiterConfig c).2 = c.paramBurstRaw) ∧
    (∀ c : ViperConfig, c.cleanupTimeoutStr = "" → GetRateLimiterCleanupTimeout c = 180) ∧
    (∀ c : ViperConfig, parseDuration c.cleanupTimeoutStr = none →
        GetRateLimiterCleanupTimeout c = 180) ∧
    (∀ (c : ViperConfig) (d : ℚ), c.cleanupTimeoutStr ≠ "" →
        parseDuration c.cleanupTimeoutStr = some d → GetRateLimiterCleanupTimeout c = d) ∧
    (∀ (ip : String) (t : ℚ) (s : MWState), alookup ip s.globalVisitors = none →
        alookup ip (touchGlobal ip t s).globalVisitors =
          some ⟨specConfiguredGlobalLimiter ⟨"", 0, 0, 0, 0⟩ t, t⟩) ∧
    (∀ (p : String) (t : ℚ) (inner : List (String × ParamVisitor)),
        alookup p inner = none →
        alookup p (touchInner p t inner) =
          some ⟨specConfiguredParamLimiter ⟨"", 0, 0, 0, 0⟩ t, t⟩) ∧
    (∀ (ip raw : String) (t : ℚ) (s : MWState),
        (RateLimitMiddleware ip raw t s).1 = MWResult.forwarded ∨
        (RateLimitMiddleware ip raw t s).1 = globalDenyResult ∨
        (RateLimitMiddleware ip raw t s).1 = paramDenyResult) := by
  refine ⟨?_, ?_, ?_, ?_, ?_, ?_, ?_, ?_, ?_, ?_, ?_, ?_, ?_, ?_⟩
  · intro c h; simp [GetGlobalRateLimiterConfig, h]
  · intro c h; simp [GetGlobalRateLimiterConfig, h]
  · intro c h; simp [GetGlobalRateLimiterConfig, h]
  · intro c h; simp [GetGlobalRateLimiterConfig, h]
  · intro c h; simp [GetParamRateLimiterConfig, h]
  · intro c h; simp [GetParamRateLimiterConfig, h]
  · intro c h; simp [GetParamRateLimiterConfig, h]
  · intro c h; simp [GetParamRateLimiterConfig, h]
  · intro c h; simp [GetRateLimiterCleanupTimeout, h, parseDuration_3m]
  · intro c h
    by_cases he : c.cleanupTimeoutStr = ""
    · simp [GetRateLimiterCleanupTimeout, he, parseDuration_3m]
    · simp [GetRateLimiterCleanupTimeout, he, h]
  · intro c d hne hparse
    simp [GetRateLimiterCleanupTimeout, hne, hparse]
  · intro ip t s h
    rw [alookup_touchGlobal_none h]
    simp [specConfiguredGlobalLimiter, GetGlobalRateLimiterConfig]
  · intro p t inner h
    unfold touchInner
    simp only [h]
    simp [alookup, specConfiguredParamLimiter, GetParamRateLimiterConfig]
  · intro ip raw t s
    rcases hg : ((touchedState ip (normParam raw) t s).allowGlobal ip t).1 with _ | _
    · right; left; rw [rateLimit_eq_globalDeny hg]
    · rcases hp : ((((touchedState ip (normParam raw) t s).allowGlobal ip t).2).allowParam
          ip (normParam raw) t).1 with _ | _
      · right; right; rw [rateLimit_eq_paramDeny hg hp]
      · left; rw [rateLimit_eq_forwarded hg hp]

/-- Concrete instances of `config_defaults_and_middleware_constants`: an
unparsable global rate defaults to 10; an empty timeout defaults to 3
minutes; a configured "5m" is used; a fresh client's bucket equals the
default-configuration spec bucket. -/
theorem config_defaults_and_middleware_constants_witness :
    (GetGlobalRateLimiterConfig ⟨"junk", 0, 0, 0, 0⟩).1 = 10 ∧
    GetRateLimiterCleanupTimeout ⟨"", 0, 0, 0, 0⟩ = 180 ∧
    GetRateLimiterCleanupTimeout ⟨"5m", 0, 0, 0, 0⟩ = 300 ∧
    alookup "a" (touchGlobal "a" 0 MWState.empty).globalVisitors =
      some ⟨specConfiguredGlobalLimiter ⟨"", 0, 0, 0, 0⟩ 0, 0⟩ :=
  ⟨config_defaults_and_middleware_constants.1 ⟨"junk", 0, 0, 0, 0⟩ rfl,
   config_defaults_and_middleware_constants.2.2.2.2.2.2.2.2.1 ⟨"", 0, 0, 0, 0⟩ rfl,
   config_defaults_and_middleware_constants.2.2.2.2.2.2.2.2.2.2.1 ⟨"5m", 0, 0, 0, 0⟩ 300
     (by decide) parseDuration_5m,
   config_defaults_and_middleware_constants.2.2.2.2.2.2.2.2.2.2.2.1 "a" 0 MWState.empty rfl⟩

end WeatherApi
